import Mathlib

/-!
Verification of the EFM32/EZR32 target driver (`src/target/efm32.c`) of the
Black Magic Debug project.  The driver's data model (device catalog), its
identification routine (`efm32_probe`), the flash erase engine
(`efm32_flash_erase`), the stub-based write engine (`efm32_flash_write`) and
the maintenance commands (`efm32_cmd_erase_all`, EUI read) are embedded
shallowly below.  Interaction with the debug link is modelled by an explicit
trace of memory-transaction events, and the busy-polling loops are driven by
an environment script listing, for each poll of the status register, the
status word returned and whether `target_check_error` then reports a fault.
-/

namespace Efm32

/-! ## Memory System Controller register addresses (DRACO variant is compiled in) -/

def EFM32_MSC : Nat := 0x400e0000

def EFM32_MSC_LOCK : Nat := EFM32_MSC + 0x040

def EFM32_MSC_CMD : Nat := EFM32_MSC + 0x074

def EFM32_MSC_WRITECTRL : Nat := EFM32_MSC + 0x008

def EFM32_MSC_WRITECMD : Nat := EFM32_MSC + 0x00c

def EFM32_MSC_ADDRB : Nat := EFM32_MSC + 0x010

def EFM32_MSC_WDATA : Nat := EFM32_MSC + 0x018

def EFM32_MSC_STATUS : Nat := EFM32_MSC + 0x01c

def EFM32_MSC_MASSLOCK : Nat := EFM32_MSC + 0x054

def EFM32_MSC_LOCK_LOCKKEY : Nat := 0x1b71

def EFM32_MSC_MASSLOCK_LOCKKEY : Nat := 0x631a

def EFM32_MSC_WRITECMD_LADDRIM : Nat := 1 <<< 0

def EFM32_MSC_WRITECMD_ERASEPAGE : Nat := 1 <<< 1

def EFM32_MSC_WRITECMD_ERASEMAIN0 : Nat := 1 <<< 8

def EFM32_MSC_STATUS_BUSY : Nat := 1 <<< 0

/-! ## Device information area addresses -/

def EFM32_INFO : Nat := 0x0fe00000

def EFM32_DI : Nat := EFM32_INFO + 0x8000

def EFM32_DI_RADIO_OPN : Nat := EFM32_DI + 0x1AE

def EFM32_DI_EUI64_0 : Nat := EFM32_DI + 0x1F0

def EFM32_DI_EUI64_1 : Nat := EFM32_DI + 0x1F4

def EFM32_DI_MEM_INFO_FLASH : Nat := EFM32_DI + 0x1F8

def EFM32_DI_MEM_INFO_RAM : Nat := EFM32_DI + 0x1FA

def EFM32_DI_PART_NUMBER : Nat := EFM32_DI + 0x1FC

def EFM32_DI_PART_FAMILY : Nat := EFM32_DI + 0x1FE

def SRAM_BASE : Nat := 0x20000000

/-! ## Device catalog -/

/-- Catalog entry, mirroring `efm32_device_t` in the source. -/
structure efm32_device_t where
  family : Nat
  name : String
  flash_page_size : Nat
  msc_offset : Nat
  has_radio : Bool
  deriving DecidableEq, Repr

/-- The static device table `efm32_devices`, entry for entry. -/
def efm32_devices : List efm32_device_t := [
  ⟨16, "EFR32MG1P", 2048, 0x400e0000, true⟩,
  ⟨17, "EFR32MG1B", 2048, 0x400e0000, true⟩,
  ⟨18, "EFR32MG1V", 2048, 0x400e0000, true⟩,
  ⟨19, "EFR32BG1P", 2048, 0x400e0000, true⟩,
  ⟨20, "EFR32BG1B", 2048, 0x400e0000, true⟩,
  ⟨21, "EFR32BG1V", 2048, 0x400e0000, true⟩,
  ⟨25, "EFR32FG1P", 2048, 0x400e0000, true⟩,
  ⟨26, "EFR32FG1B", 2048, 0x400e0000, true⟩,
  ⟨27, "EFR32FG1V", 2048, 0x400e0000, true⟩,
  ⟨28, "EFR32MG12P", 2048, 0x400e0000, true⟩,
  ⟨28, "EFR32MG2P", 2048, 0x400e0000, true⟩,
  ⟨29, "EFR32MG12B", 2048, 0x400e0000, true⟩,
  ⟨30, "EFR32MG12V", 2048, 0x400e0000, true⟩,
  ⟨31, "EFR32BG12P", 2048, 0x400e0000, true⟩,
  ⟨32, "EFR32BG12B", 2048, 0x400e0000, true⟩,
  ⟨33, "EFR32BG12V", 2048, 0x400e0000, true⟩,
  ⟨37, "EFR32FG12P", 2048, 0x400e0000, true⟩,
  ⟨38, "EFR32FG12B", 2048, 0x400e0000, true⟩,
  ⟨39, "EFR32FG12V", 2048, 0x400e0000, true⟩,
  ⟨40, "EFR32MG13P", 2048, 0x400e0000, true⟩,
  ⟨41, "EFR32MG13B", 2048, 0x400e0000, true⟩,
  ⟨42, "EFR32MG13V", 2048, 0x400e0000, true⟩,
  ⟨43, "EFR32BG13P", 2048, 0x400e0000, true⟩,
  ⟨44, "EFR32BG13B", 2048, 0x400e0000, true⟩,
  ⟨45, "EFR32BG13V", 2048, 0x400e0000, true⟩,
  ⟨49, "EFR32FG13P", 2048, 0x400e0000, true⟩,
  ⟨50, "EFR32FG13B", 2048, 0x400e0000, true⟩,
  ⟨51, "EFR32FG13V", 2048, 0x400e0000, true⟩,
  ⟨81, "EFM32PG1B", 2048, 0x400e0000, false⟩,
  ⟨83, "EFM32JG1B", 2048, 0x400e0000, false⟩,
  ⟨71, "EFM32G", 512, 0x400c0000, false⟩,
  ⟨72, "EFM32GG", 2048, 0x400c0000, false⟩,
  ⟨73, "EFM32TG", 512, 0x400c0000, false⟩,
  ⟨74, "EFM32LG", 2048, 0x400c0000, false⟩,
  ⟨75, "EFM32WG", 2048, 0x400c0000, false⟩,
  ⟨76, "EFM32ZG", 1024, 0x400c0000, false⟩,
  ⟨77, "EFM32HG", 1024, 0x400c0000, false⟩,
  ⟨120, "EFR32WG", 2048, 0x400c0000, true⟩,
  ⟨121, "EFR32LG", 2048, 0x400c0000, true⟩]

/-- The first-match catalog scan performed by the loop in `efm32_probe`
(`for i ...; if efm32_devices[i].family == part_family ... break`). -/
def efm32_lookup (part_family : Nat) : Option efm32_device_t :=
  efm32_devices.find? (fun d => d.family == part_family)

/-! ## Debug-link transaction events -/

/-- One memory transaction issued over the debug link. -/
inductive Event where
  | write32 (addr value : Nat)
  | read32 (addr : Nat)
  | read16 (addr : Nat)
  | read8 (addr : Nat)
  | writeBlock (addr len : Nat)
  | runStub (entry arg0 arg1 arg2 arg3 : Nat)
  deriving DecidableEq, Repr

/-- The address a transaction touches (for `runStub`, the entry point). -/
def eventAddr : Event → Nat
  | Event.write32 a _ => a
  | Event.read32 a => a
  | Event.read16 a => a
  | Event.read8 a => a
  | Event.writeBlock a _ => a
  | Event.runStub e _ _ _ _ => e

/-- Whether the transaction is a plain read. -/
def Event.isRead : Event → Bool
  | Event.read32 _ => true
  | Event.read16 _ => true
  | Event.read8 _ => true
  | _ => false

/-! ## Busy polling

A poll script lists, per iteration of a `while (STATUS & BUSY)` loop, the
status word the read returns and, when the busy bit was set, the result of
the subsequent `target_check_error` call. -/

/-- Run the busy-poll loop of the source
(`while (read32 STATUS & BUSY) if (target_check_error) return`).  Returns
`some (true, n)` when the busy bit cleared after `n` status reads,
`some (false, n)` when a link error was detected after `n` status reads, and
`none` when the script ran out while the controller still reported busy
(an unterminated poll, outside the modelled behaviour). -/
def pollBusy : List (Nat × Bool) → Option (Bool × Nat)
  | [] => none
  | (st, err) :: rest =>
    if st &&& EFM32_MSC_STATUS_BUSY ≠ 0 then
      if err then some (false, 1)
      else
        match pollBusy rest with
        | none => none
        | some (b, n) => some (b, n + 1)
    else some (true, 1)

/-- Number of status reads a poll script gives rise to. -/
def pollCount (s : List (Nat × Bool)) : Nat :=
  match pollBusy s with
  | some (_, n) => n
  | none => s.length

/-- True exactly when the script ends with the busy bit clear and no link error. -/
def pollClears (s : List (Nat × Bool)) : Bool :=
  match pollBusy s with
  | some (true, _) => true
  | _ => false

/-- The status-register reads a poll of `n` iterations issues. -/
def statusReads (n : Nat) : List Event :=
  List.replicate n (Event.read32 EFM32_MSC_STATUS)

/-! ## Erase engine -/

/-- Outcome of a flash operation: `ok` models the C return value `0`,
`linkError` models `-1`, `stuck` marks a run whose poll environment was
exhausted (an unterminated busy loop, outside the modelled behaviour). -/
inductive FlashResult where
  | ok
  | linkError
  | stuck
  deriving DecidableEq, Repr

/-- Addition with 32-bit wraparound (`target_addr` and the firmware `size_t` are
32 bits wide). -/
def wrapAdd (a b : Nat) : Nat := (a + b) % 2 ^ 32

/-- Subtraction with 32-bit wraparound. -/
def wrapSub (a b : Nat) : Nat := (a + (2 ^ 32 - b % 2 ^ 32)) % 2 ^ 32

/-- The three command writes the erase loop issues per page: latch the page
address (`ADDRB` then `LADDRIM`), then the page-erase command. -/
def pageCommands (addr : Nat) : List Event :=
  [Event.write32 EFM32_MSC_ADDRB addr,
   Event.write32 EFM32_MSC_WRITECMD EFM32_MSC_WRITECMD_LADDRIM,
   Event.write32 EFM32_MSC_WRITECMD EFM32_MSC_WRITECMD_ERASEPAGE]

/-- The `while (len)` loop of `efm32_flash_erase`.  Each iteration consumes
one poll script from the environment; `addr += f->blocksize` and
`len -= f->blocksize` are the source's 32-bit updates. -/
def eraseLoop (blocksize : Nat) : List (List (Nat × Bool)) → Nat → Nat → FlashResult × List Event
  | env, addr, len =>
    if len = 0 then (FlashResult.ok, [])
    else
      match env with
      | [] => (FlashResult.stuck, [])
      | script :: envRest =>
        match pollBusy script with
        | none => (FlashResult.stuck, pageCommands addr ++ statusReads script.length)
        | some (false, n) => (FlashResult.linkError, pageCommands addr ++ statusReads n)
        | some (true, n) =>
          let rest := eraseLoop blocksize envRest (wrapAdd addr blocksize) (wrapSub len blocksize)
          (rest.1, pageCommands addr ++ statusReads n ++ rest.2)

/-- Function `efm32_flash_erase`: enable write/erase (`WRITECTRL := 1`), then erase
page by page. -/
def efm32_flash_erase (blocksize addr len : Nat) (env : List (List (Nat × Bool))) :
    FlashResult × List Event :=
  let r := eraseLoop blocksize env addr len
  (r.1, Event.write32 EFM32_MSC_WRITECTRL 1 :: r.2)

/-- The trace an erase run produces when every page's poll terminates
cleanly: per page, the three command writes followed by that page's status
reads, the page address advancing by `blocksize`. -/
def expectedTrace (blocksize : Nat) : Nat → List (List (Nat × Bool)) → List Event
  | _, [] => []
  | addr, s :: rest =>
    pageCommands addr ++ statusReads (pollCount s) ++ expectedTrace blocksize (addr + blocksize) rest

/-- The values latched into `ADDRB` along a trace, in order. -/
def latchedAddrs (tr : List Event) : List Nat :=
  tr.filterMap (fun e =>
    match e with
    | Event.write32 a v => if a = EFM32_MSC_ADDRB then some v else none
    | _ => none)

/-- How many times a trace writes command word `v` to `WRITECMD`. -/
def writeCmdCount (v : Nat) (tr : List Event) : Nat :=
  tr.countP (fun e => e == Event.write32 EFM32_MSC_WRITECMD v)

/-! ## Mass erase (`efm32_cmd_erase_all`) -/

/-- The three writes `efm32_cmd_erase_all` issues before polling:
write-enable, mass-erase unlock with the lock key, `ERASEMAIN0`. -/
def eraseAllPre : List Event :=
  [Event.write32 EFM32_MSC_WRITECTRL 1,
   Event.write32 EFM32_MSC_MASSLOCK EFM32_MSC_MASSLOCK_LOCKKEY,
   Event.write32 EFM32_MSC_WRITECMD EFM32_MSC_WRITECMD_ERASEMAIN0]

/-- Function `efm32_cmd_erase_all`: write-enable, unlock mass erase, issue
`ERASEMAIN0`, poll busy, and on the success path only, re-lock by writing 0
to `MASSLOCK`.  `some true` / `some false` model the C `true` / `false`
returns; `none` marks an exhausted poll script (unterminated busy loop). -/
def efm32_cmd_erase_all (script : List (Nat × Bool)) : Option Bool × List Event :=
  match pollBusy script with
  | none => (none, eraseAllPre ++ statusReads script.length)
  | some (false, n) => (some false, eraseAllPre ++ statusReads n)
  | some (true, n) =>
    (some true, eraseAllPre ++ statusReads n ++ [Event.write32 EFM32_MSC_MASSLOCK 0])

/-! ## Write engine (`efm32_flash_write`) -/

/-- Modelled from the spec: the `ALIGN` macro lives in `general.h`, which is
outside the given source; per the spec the payload goes to "the 4-byte-aligned
address immediately following the stub", i.e. round `x` up to a multiple of
`n`. -/
def ALIGN (x n : Nat) : Nat := ((x + n - 1) / n) * n

/-- Modelled from the spec: the loader stub blob
(`flashstub/efm32.stub`, included into `efm32_flash_write_stub`) is an
external, opaque binary, so its byte size is a parameter here.
`STUB_BUFFER_BASE` is `ALIGN(SRAM_BASE + sizeof(efm32_flash_write_stub), 4)`. -/
def STUB_BUFFER_BASE (stubSize : Nat) : Nat := ALIGN (SRAM_BASE + stubSize) 4

/-- Function `efm32_flash_write`: upload the stub to `SRAM_BASE`, upload the payload
to `STUB_BUFFER_BASE`, then run the stub with arguments
`(dest, STUB_BUFFER_BASE, len, 0)`. The result of `cortexm_run_stub` (an
external collaborator, modelled by the oracle `stubResult`) is returned
unchanged. -/
def efm32_flash_write (stubSize dest len : Nat) (stubResult : Int) : Int × List Event :=
  (stubResult,
   [Event.writeBlock SRAM_BASE stubSize,
    Event.writeBlock (STUB_BUFFER_BASE stubSize) len,
    Event.runStub SRAM_BASE dest (STUB_BUFFER_BASE stubSize) len 0])

/-! ## EUI read -/

/-- Function `efm32_read_eui`, i.e. `(uint64_t)read32(EUI64_1) << 32 | read32(EUI64_0)`,
taking the two 32-bit register values as arguments. -/
def efm32_read_eui (eui1 eui0 : Nat) : Nat :=
  ((eui1 % 2 ^ 32) <<< 32) ||| (eui0 % 2 ^ 32)

/-- The reads `efm32_read_eui` issues, high word first as in the source. -/
def efm32_read_eui_trace : List Event :=
  [Event.read32 EFM32_DI_EUI64_1, Event.read32 EFM32_DI_EUI64_0]

/-! ## Probe -/

/-- The target as seen over the debug link: the SW-DP IDCODE and an abstract
register file giving the value stored at each address. -/
structure Target where
  idcode : Nat
  mem : Nat → Nat

/-- Embeds `target_mem_read8`. -/
def read8 (t : Target) (a : Nat) : Nat := t.mem a % 2 ^ 8

/-- Embeds `target_mem_read16`. -/
def read16 (t : Target) (a : Nat) : Nat := t.mem a % 2 ^ 16

/-- Embeds `target_mem_read32`. -/
def read32 (t : Target) (a : Nat) : Nat := t.mem a % 2 ^ 32

/-- A RAM region registered with `target_add_ram`. -/
structure RamRegion where
  start : Nat
  length : Nat
  deriving DecidableEq, Repr

/-- The flash region `efm32_add_flash` fills in and registers:
`f->start`, `f->length`, `f->blocksize`, `f->buf_size`. -/
structure target_flash where
  start : Nat
  length : Nat
  blocksize : Nat
  buf_size : Nat
  deriving DecidableEq, Repr

/-- What a successful probe establishes: the matched catalog entry, the
driver (variant) string, and the registered RAM and flash regions. -/
structure IdentifiedDevice where
  device : efm32_device_t
  driver : String
  ram : RamRegion
  flash : target_flash
  deriving DecidableEq, Repr

/-- Function `efm32_probe`: check the SW-DP IDCODE against the two accepted values,
read the part number and part family, scan the catalog, compose the variant
string (folding in the radio part number on radio-equipped parts), read the
flash and RAM size registers (kiB, converted to bytes by `* 0x400`) and
register the two memory regions.  Returns `none` (the C `false`) and the
transactions issued. -/
def efm32_probe (t : Target) : Option IdentifiedDevice × List Event :=
  if t.idcode = 0x2BA01477 ∨ t.idcode = 0x0BC11477 then
    let part_family := read8 t EFM32_DI_PART_FAMILY
    let baseEvents := [Event.read16 EFM32_DI_PART_NUMBER, Event.read8 EFM32_DI_PART_FAMILY]
    match efm32_lookup part_family with
    | none => (none, baseEvents)
    | some device =>
      let variant :=
        if device.has_radio then
          device.name ++ " (radio: " ++ toString (read16 t EFM32_DI_RADIO_OPN) ++ ")"
        else device.name
      let radioEvents :=
        if device.has_radio then [Event.read16 EFM32_DI_RADIO_OPN] else []
      let flash_size := read16 t EFM32_DI_MEM_INFO_FLASH * 0x400
      let ram_size := read16 t EFM32_DI_MEM_INFO_RAM * 0x400
      (some { device := device
              driver := variant
              ram := { start := SRAM_BASE, length := ram_size }
              flash := { start := 0x00000000, length := flash_size,
                         blocksize := device.flash_page_size,
                         buf_size := device.flash_page_size } },
       baseEvents ++ radioEvents ++
         [Event.read16 EFM32_DI_MEM_INFO_FLASH, Event.read16 EFM32_DI_MEM_INFO_RAM])
  else (none, [])

/-! ## Target-state semantics of a trace -/

/-- Apply one transaction to the target state.  Reads leave the state
unchanged; a 32-bit write updates the register file; block writes and stub
runs carry data not recorded in the event, so applying them is undefined
(`none`). -/
def applyEvent (t : Target) : Event → Option Target
  | Event.write32 a v => some { t with mem := fun x => if x = a then v % 2 ^ 32 else t.mem x }
  | Event.read32 _ => some t
  | Event.read16 _ => some t
  | Event.read8 _ => some t
  | Event.writeBlock _ _ => none
  | Event.runStub _ _ _ _ _ => none

/-- Apply a whole trace to the target state. -/
def applyTrace (t : Target) : List Event → Option Target
  | [] => some t
  | e :: es =>
    match applyEvent t e with
    | none => none
    | some t2 => applyTrace t2 es

/-- An example target: an accepted Cortex-M3/M4 IDCODE, part family 72, flash
size register 1024 (1 MiB) and RAM size register 128 (128 KiB). -/
def exTarget72 : Target where
  idcode := 0x2BA01477
  mem := fun a =>
    if a = EFM32_DI_PART_FAMILY then 72
    else if a = EFM32_DI_MEM_INFO_FLASH then 1024
    else if a = EFM32_DI_MEM_INFO_RAM then 128
    else 0

/-- The identification the probe is expected to produce on `exTarget72`. -/
def exDev72 : IdentifiedDevice where
  device := ⟨72, "EFM32GG", 2048, 0x400c0000, false⟩
  driver := "EFM32GG"
  ram := ⟨SRAM_BASE, 0x20000⟩
  flash := ⟨0, 0x100000, 2048, 2048⟩

/-! ## C1: catalog uniqueness and lookup -/

/-- C1 (counterexample): family identifiers are NOT unique within the
catalog — the identifier 28 appears on two distinct entries
(`EFR32MG12P` and `EFR32MG2P`), so the claimed uniqueness invariant fails. -/
theorem c1_duplicate_family :
    List.countP (fun d => d.family == 28) efm32_devices = 2 ∧
    ¬ List.Pairwise (fun a b : efm32_device_t => a.family ≠ b.family) efm32_devices := by
  exact ⟨by decide, by decide⟩

/-- C1 (amended): family identifiers are unique in the catalog except 28,
which appears on exactly two entries; for every identifier on an entry other
than those two, the first-match lookup returns that unique entry, and for an
identifier on no entry the lookup returns `none` (NotFound). -/
theorem c1_catalog_lookup :
    List.countP (fun d => d.family == 28) efm32_devices = 2 ∧
    (∀ d : efm32_device_t, d ∈ efm32_devices → d.family ≠ 28 →
      efm32_lookup d.family = some d) ∧
    (∀ fam : Nat, (∀ d : efm32_device_t, d ∈ efm32_devices → d.family ≠ fam) →
      efm32_lookup fam = none) := by
  refine ⟨by decide, by decide, ?_⟩
  intro fam h
  refine List.find?_eq_none.mpr ?_
  intro d hd
  simpa using h d hd

/-- C1 witness: the unique family 72 resolves to its catalog entry, and the
absent family 99 yields NotFound. -/
theorem c1_witness :
    efm32_lookup 72 = some ⟨72, "EFM32GG", 2048, 0x400c0000, false⟩ ∧
    efm32_lookup 99 = none := by
  refine ⟨c1_catalog_lookup.2.1 ⟨72, "EFM32GG", 2048, 0x400c0000, false⟩ (by decide) (by decide),
    c1_catalog_lookup.2.2 99 (by decide)⟩

/-! ## C7: EUI read -/

/-- A number shifted past `w` bits ored with a `w`-bit number is their sum. -/
theorem lor_high_low : ∀ (w hi lo : Nat), lo < 2 ^ w → hi * 2 ^ w ||| lo = hi * 2 ^ w + lo := by
  intro w
  induction w with
  | zero =>
    intro hi lo h
    have hz : lo = 0 := by omega
    subst hz
    simp
  | succ w ih =>
    intro hi lo hlo
    have hpow : 2 ^ (w + 1) = 2 ^ w * 2 := by rw [Nat.pow_succ]
    have hv : hi * 2 ^ (w + 1) = hi * 2 ^ w * 2 := by rw [hpow, Nat.mul_assoc]
    have hlo2 : lo < 2 ^ w * 2 := by omega
    have hdiv2 : hi * 2 ^ (w + 1) / 2 = hi * 2 ^ w := by
      rw [hv]
      exact Nat.mul_div_cancel _ (by omega)
    have h1 : (hi * 2 ^ (w + 1) ||| lo) / 2 = hi * 2 ^ w + lo / 2 := by
      rw [Nat.or_div_two, hdiv2]
      exact ih hi (lo / 2) (by omega)
    have h2 : (hi * 2 ^ (w + 1) ||| lo) % 2 = lo % 2 := by
      rcases Nat.mod_two_eq_zero_or_one lo with h | h
      · rcases Nat.mod_two_eq_zero_or_one (hi * 2 ^ (w + 1) ||| lo) with h3 | h3
        · omega
        · have h4 := Nat.or_mod_two_eq_one.mp h3
          omega
      · rw [h]
        exact Nat.or_mod_two_eq_one.mpr (Or.inr h)
    have h3 := Nat.div_add_mod (hi * 2 ^ (w + 1) ||| lo) 2
    omega

/-- C7: `efm32_read_eui` forms the 64-bit value with the high EUI register in
the high 32 bits and the low register in the low 32 bits. -/
theorem c7_read_eui (eui1 eui0 : Nat) (h1 : eui1 < 2 ^ 32) (h0 : eui0 < 2 ^ 32) :
    efm32_read_eui eui1 eui0 = eui1 * 2 ^ 32 + eui0 := by
  unfold efm32_read_eui
  rw [Nat.mod_eq_of_lt h1, Nat.mod_eq_of_lt h0, Nat.shiftLeft_eq]
  exact lor_high_low 32 eui1 eui0 h0

/-- C7 witness: for high = 0x12345678 and low = 0x9ABCDEF0 the EUI read
returns 0x123456789ABCDEF0. -/
theorem c7_witness : efm32_read_eui 0x12345678 0x9ABCDEF0 = 0x123456789ABCDEF0 := by
  rw [c7_read_eui 0x12345678 0x9ABCDEF0 (by norm_num) (by norm_num)]
  norm_num

/-! ## C2 / C3: the erase engine -/

/-- A clearing poll script ends with `some (true, pollCount s)`. -/
theorem pollClears_spec (s : List (Nat × Bool)) (h : pollClears s = true) :
    pollBusy s = some (true, pollCount s) := by
  unfold pollClears at h
  unfold pollCount
  cases hp : pollBusy s with
  | none => rw [hp] at h; simp at h
  | some p =>
    rw [hp] at h
    cases p with
    | mk b n =>
      cases b with
      | false => simp at h
      | true => simp

/-- Polling performs at least one status read. -/
theorem pollBusy_pos (s : List (Nat × Bool)) (b : Bool) (n : Nat)
    (h : pollBusy s = some (b, n)) : 1 ≤ n := by
  induction s generalizing b n with
  | nil => simp [pollBusy] at h
  | cons p rest ih =>
    cases p with
    | mk st err =>
      rw [pollBusy] at h
      by_cases hb : st &&& EFM32_MSC_STATUS_BUSY ≠ 0
      · rw [if_pos hb] at h
        cases err with
        | true => simp at h; omega
        | false =>
          simp only [Bool.false_eq_true, if_false] at h
          cases hr : pollBusy rest with
          | none => rw [hr] at h; simp at h
          | some q =>
            rw [hr] at h
            cases q with
            | mk b2 n2 => simp at h; omega
      · rw [if_neg hb] at h
        simp at h
        omega

/-- The erase loop on an environment whose scripts all clear: it terminates
exactly when all `env.length` pages are done, returns ok, and produces the
per-page command/poll trace with addresses advancing by `blocksize`. -/
theorem eraseLoop_clear (blocksize : Nat) :
    ∀ (env : List (List (Nat × Bool))) (addr : Nat),
      0 < blocksize → blocksize < 2 ^ 32 →
      addr + env.length * blocksize < 2 ^ 32 →
      (∀ s ∈ env, pollClears s = true) →
      eraseLoop blocksize env addr (env.length * blocksize) =
        (FlashResult.ok, expectedTrace blocksize addr env) := by
  intro env
  induction env with
  | nil =>
    intro addr _ _ _ _
    rw [eraseLoop]
    simp [expectedTrace]
  | cons s rest ih =>
    intro addr hbs hbs32 hwrap hclear
    have hsucc : (s :: rest).length * blocksize = rest.length * blocksize + blocksize := by
      rw [List.length_cons, Nat.succ_mul]
    have hne : ¬ (s :: rest).length * blocksize = 0 := by omega
    have hs := pollClears_spec s (hclear s (by simp))
    rw [eraseLoop, if_neg hne]
    simp only [hs]
    have hadd : wrapAdd addr blocksize = addr + blocksize := by
      unfold wrapAdd
      omega
    have hsub : wrapSub ((s :: rest).length * blocksize) blocksize = rest.length * blocksize := by
      unfold wrapSub
      omega
    rw [hadd, hsub, ih (addr + blocksize) hbs hbs32 (by omega)
      (fun x hx => hclear x (by simp [hx]))]
    rw [expectedTrace]

/-- The erase loop on an environment that clears for `good.length` pages and
then detects a link error: it stops with `linkError` right after the faulted
page, issuing no transaction for any further page. -/
theorem eraseLoop_fault (blocksize : Nat) :
    ∀ (good : List (List (Nat × Bool))) (bad : List (Nat × Bool))
      (tail : List (List (Nat × Bool))) (addr k n : Nat),
      0 < blocksize → blocksize < 2 ^ 32 →
      addr + k * blocksize < 2 ^ 32 →
      (∀ s ∈ good, pollClears s = true) →
      pollBusy bad = some (false, n) →
      good.length < k →
      eraseLoop blocksize (good ++ bad :: tail) addr (k * blocksize) =
        (FlashResult.linkError,
         expectedTrace blocksize addr good ++
           pageCommands (addr + good.length * blocksize) ++ statusReads n) := by
  intro good
  induction good with
  | nil =>
    intro bad tail addr k n hbs hbs32 hwrap hclear hbad hk
    have hne : ¬ k * blocksize = 0 := by
      have := Nat.mul_le_mul (Nat.one_le_iff_ne_zero.mpr (by omega : k ≠ 0)) hbs
      omega
    rw [List.nil_append, eraseLoop, if_neg hne]
    simp only [hbad]
    simp [expectedTrace]
  | cons s rest ih =>
    intro bad tail addr k n hbs hbs32 hwrap hclear hbad hk
    cases k with
    | zero => omega
    | succ k2 =>
      have hsucc : (k2 + 1) * blocksize = k2 * blocksize + blocksize := by
        rw [Nat.succ_mul]
      have hne : ¬ (k2 + 1) * blocksize = 0 := by omega
      have hs := pollClears_spec s (hclear s (by simp))
      rw [List.cons_append, eraseLoop, if_neg hne]
      simp only [hs]
      have hadd : wrapAdd addr blocksize = addr + blocksize := by
        unfold wrapAdd
        omega
      have hsub : wrapSub ((k2 + 1) * blocksize) blocksize = k2 * blocksize := by
        unfold wrapSub
        omega
      rw [hadd, hsub, ih bad tail (addr + blocksize) k2 n hbs hbs32 (by omega)
        (fun x hx => hclear x (by simp [hx])) hbad (by simpa using hk)]
      rw [expectedTrace]
      have haddr : addr + blocksize + rest.length * blocksize =
          addr + (s :: rest).length * blocksize := by
        rw [List.length_cons, Nat.succ_mul]
        omega
      rw [haddr]
      simp [List.append_assoc]

/-- The only `ADDRB` value a page sequence latches is its page address. -/
theorem latchedAddrs_pageCommands (a : Nat) : latchedAddrs (pageCommands a) = [a] := by
  simp [latchedAddrs, pageCommands, List.filterMap_cons, EFM32_MSC_ADDRB,
    EFM32_MSC_WRITECMD, EFM32_MSC]

/-- Status polling latches no address. -/
theorem latchedAddrs_statusReads (n : Nat) : latchedAddrs (statusReads n) = [] := by
  induction n with
  | zero => rfl
  | succ m ih =>
    simp only [statusReads, List.replicate_succ] at ih ⊢
    simp only [latchedAddrs, List.filterMap_cons] at ih ⊢
    exact ih

/-- Extraction `latchedAddrs` distributes over concatenation. -/
theorem latchedAddrs_append (t1 t2 : List Event) :
    latchedAddrs (t1 ++ t2) = latchedAddrs t1 ++ latchedAddrs t2 := by
  simp [latchedAddrs, List.filterMap_append]

/-- Along a clean erase trace, the latched addresses are exactly
`addr, addr + blocksize, addr + 2 * blocksize, ...`, one per page. -/
theorem latchedAddrs_expectedTrace (blocksize : Nat) :
    ∀ (env : List (List (Nat × Bool))) (addr : Nat),
      latchedAddrs (expectedTrace blocksize addr env) =
        (List.range env.length).map (fun i => addr + i * blocksize) := by
  intro env
  induction env with
  | nil => intro addr; simp [expectedTrace, latchedAddrs]
  | cons s rest ih =>
    intro addr
    rw [expectedTrace, latchedAddrs_append, latchedAddrs_append,
      latchedAddrs_pageCommands, latchedAddrs_statusReads, ih (addr + blocksize)]
    rw [List.length_cons, List.range_succ_eq_map, List.map_cons, List.map_map]
    simp only [List.singleton_append, List.nil_append]
    congr 1
    · omega
    · refine List.map_congr_left ?_
      intro i _
      simp only [Function.comp_apply]
      have hs : Nat.succ i * blocksize = i * blocksize + blocksize := Nat.succ_mul i blocksize
      omega

/-- Counting `WRITECMD` writes in a page sequence: one `LADDRIM`, one
`ERASEPAGE`, nothing else. -/
theorem writeCmdCount_pageCommands (a v : Nat) (hv : v = EFM32_MSC_WRITECMD_LADDRIM ∨
    v = EFM32_MSC_WRITECMD_ERASEPAGE) :
    writeCmdCount v (pageCommands a) = 1 := by
  rcases hv with h | h <;> subst h <;>
    simp [writeCmdCount, pageCommands, List.countP_cons, EFM32_MSC_ADDRB,
      EFM32_MSC_WRITECMD, EFM32_MSC, EFM32_MSC_WRITECMD_LADDRIM, EFM32_MSC_WRITECMD_ERASEPAGE]

/-- Status polling writes no command. -/
theorem writeCmdCount_statusReads (n v : Nat) : writeCmdCount v (statusReads n) = 0 := by
  refine List.countP_eq_zero.mpr ?_
  intro e he
  rw [List.eq_of_mem_replicate he]
  simp

/-- Counting `writeCmdCount` distributes over concatenation. -/
theorem writeCmdCount_append (v : Nat) (t1 t2 : List Event) :
    writeCmdCount v (t1 ++ t2) = writeCmdCount v t1 + writeCmdCount v t2 := by
  simp [writeCmdCount, List.countP_append]

/-- Along a clean erase trace there is exactly one `LADDRIM` and one
`ERASEPAGE` command write per page. -/
theorem writeCmdCount_expectedTrace (blocksize v : Nat)
    (hv : v = EFM32_MSC_WRITECMD_LADDRIM ∨ v = EFM32_MSC_WRITECMD_ERASEPAGE) :
    ∀ (env : List (List (Nat × Bool))) (addr : Nat),
      writeCmdCount v (expectedTrace blocksize addr env) = env.length := by
  intro env
  induction env with
  | nil => intro addr; simp [expectedTrace, writeCmdCount]
  | cons s rest ih =>
    intro addr
    rw [expectedTrace, writeCmdCount_append, writeCmdCount_append,
      writeCmdCount_pageCommands addr v hv, writeCmdCount_statusReads, ih (addr + blocksize),
      List.length_cons]
    omega

/-- C2: for `length = k * page_size` (with `k = env.length` poll scripts all
clearing, i.e. no link error), the erase call returns ok after the
write-enable followed by exactly one page sequence per page — each being one
`ADDRB` latch, one `LADDRIM`, one `ERASEPAGE` and that page's busy polls —
with the latched addresses strictly increasing by `page_size` from `addr`,
no repeats and no gaps. -/
theorem c2_erase_pages (blocksize addr : Nat) (env : List (List (Nat × Bool)))
    (hbs : 0 < blocksize) (hbs32 : blocksize < 2 ^ 32)
    (hwrap : addr + env.length * blocksize < 2 ^ 32)
    (hclear : ∀ s ∈ env, pollClears s = true) :
    efm32_flash_erase blocksize addr (env.length * blocksize) env =
      (FlashResult.ok,
       Event.write32 EFM32_MSC_WRITECTRL 1 :: expectedTrace blocksize addr env) ∧
    latchedAddrs (expectedTrace blocksize addr env) =
      (List.range env.length).map (fun i => addr + i * blocksize) ∧
    writeCmdCount EFM32_MSC_WRITECMD_ERASEPAGE (expectedTrace blocksize addr env) =
      env.length ∧
    writeCmdCount EFM32_MSC_WRITECMD_LADDRIM (expectedTrace blocksize addr env) =
      env.length := by
  refine ⟨?_, latchedAddrs_expectedTrace blocksize env addr,
    writeCmdCount_expectedTrace blocksize _ (Or.inr rfl) env addr,
    writeCmdCount_expectedTrace blocksize _ (Or.inl rfl) env addr⟩
  unfold efm32_flash_erase
  rw [eraseLoop_clear blocksize env addr hbs hbs32 hwrap hclear]

/-- C2 witness: erasing two 2048-byte pages from address 0 with clean polls
issues exactly the two page sequences at addresses 0 and 2048 and returns ok. -/
theorem c2_witness :
    efm32_flash_erase 2048 0 (2 * 2048) [[(0, false)], [(1, false), (0, false)]] =
      (FlashResult.ok,
       Event.write32 EFM32_MSC_WRITECTRL 1 ::
         expectedTrace 2048 0 [[(0, false)], [(1, false), (0, false)]]) ∧
    latchedAddrs (expectedTrace 2048 0 [[(0, false)], [(1, false), (0, false)]]) =
      [0, 2048] ∧
    writeCmdCount EFM32_MSC_WRITECMD_ERASEPAGE
      (expectedTrace 2048 0 [[(0, false)], [(1, false), (0, false)]]) = 2 ∧
    writeCmdCount EFM32_MSC_WRITECMD_LADDRIM
      (expectedTrace 2048 0 [[(0, false)], [(1, false), (0, false)]]) = 2 := by
  have h := c2_erase_pages 2048 0 [[(0, false)], [(1, false), (0, false)]]
    (by norm_num) (by norm_num) (by norm_num) (by decide)
  refine ⟨h.1, ?_, h.2.2.1, h.2.2.2⟩
  rw [h.2.1]
  decide

/-- C3: when the busy poll of page `good.length` detects a link fault, the
erase call returns linkError immediately: the trace ends with that page's
sequence, no transaction is issued for any further page, and the latched
addresses stop at the faulted page. -/
theorem c3_erase_link_fault (blocksize addr k n : Nat)
    (good : List (List (Nat × Bool))) (bad : List (Nat × Bool))
    (tail : List (List (Nat × Bool)))
    (hbs : 0 < blocksize) (hbs32 : blocksize < 2 ^ 32)
    (hwrap : addr + k * blocksize < 2 ^ 32)
    (hclear : ∀ s ∈ good, pollClears s = true)
    (hbad : pollBusy bad = some (false, n))
    (hk : good.length < k) :
    efm32_flash_erase blocksize addr (k * blocksize) (good ++ bad :: tail) =
      (FlashResult.linkError,
       Event.write32 EFM32_MSC_WRITECTRL 1 ::
         (expectedTrace blocksize addr good ++
           pageCommands (addr + good.length * blocksize) ++ statusReads n)) ∧
    latchedAddrs
        (expectedTrace blocksize addr good ++
          pageCommands (addr + good.length * blocksize) ++ statusReads n) =
      (List.range (good.length + 1)).map (fun i => addr + i * blocksize) ∧
    writeCmdCount EFM32_MSC_WRITECMD_ERASEPAGE
        (expectedTrace blocksize addr good ++
          pageCommands (addr + good.length * blocksize) ++ statusReads n) =
      good.length + 1 := by
  refine ⟨?_, ?_, ?_⟩
  · unfold efm32_flash_erase
    rw [eraseLoop_fault blocksize good bad tail addr k n hbs hbs32 hwrap hclear hbad hk]
  · rw [latchedAddrs_append, latchedAddrs_append, latchedAddrs_statusReads,
      latchedAddrs_pageCommands, latchedAddrs_expectedTrace, List.range_succ]
    simp
  · rw [writeCmdCount_append, writeCmdCount_append, writeCmdCount_statusReads,
      writeCmdCount_pageCommands _ _ (Or.inr rfl),
      writeCmdCount_expectedTrace blocksize _ (Or.inr rfl)]

/-- C3 witness: with the first page polling clean and the second page's poll
hitting a link fault, a three-page erase stops after the second page with
linkError, having latched only addresses 0 and 2048. -/
theorem c3_witness :
    efm32_flash_erase 2048 0 (3 * 2048) [[(0, false)], [(1, true)], [(0, false)]] =
      (FlashResult.linkError,
       Event.write32 EFM32_MSC_WRITECTRL 1 ::
         (expectedTrace 2048 0 [[(0, false)]] ++ pageCommands 2048 ++ statusReads 1)) ∧
    latchedAddrs
        (expectedTrace 2048 0 [[(0, false)]] ++ pageCommands 2048 ++ statusReads 1) =
      [0, 2048] ∧
    writeCmdCount EFM32_MSC_WRITECMD_ERASEPAGE
        (expectedTrace 2048 0 [[(0, false)]] ++ pageCommands 2048 ++ statusReads 1) = 2 := by
  have h := c3_erase_link_fault 2048 0 3 1 [[(0, false)]] [(1, true)] [[(0, false)]]
    (by norm_num) (by norm_num) (by norm_num) (by decide) (by decide) (by decide)
  exact ⟨h.1, h.2.1, h.2.2⟩

/-! ## C4: mass erase -/

/-- C4: on a success path `efm32_cmd_erase_all` issues exactly write-enable,
unlock with the documented key, `ERASEMAIN0`, a nonzero number of busy polls
ending not-busy, then the re-lock write of 0; on a link fault during polling
it returns false and the re-lock write of 0 never appears in the trace. -/
theorem c4_erase_all (script : List (Nat × Bool)) (n : Nat) :
    (pollBusy script = some (true, n) →
      efm32_cmd_erase_all script =
        (some true, eraseAllPre ++ statusReads n ++ [Event.write32 EFM32_MSC_MASSLOCK 0]) ∧
      1 ≤ n) ∧
    (pollBusy script = some (false, n) →
      efm32_cmd_erase_all script = (some false, eraseAllPre ++ statusReads n) ∧
      List.count (Event.write32 EFM32_MSC_MASSLOCK 0) (eraseAllPre ++ statusReads n) = 0) := by
  constructor
  · intro h
    refine ⟨?_, pollBusy_pos script true n h⟩
    unfold efm32_cmd_erase_all
    rw [h]
  · intro h
    refine ⟨?_, ?_⟩
    · unfold efm32_cmd_erase_all
      rw [h]
    · rw [List.count_append]
      have h1 : List.count (Event.write32 EFM32_MSC_MASSLOCK 0) eraseAllPre = 0 := by decide
      have h2 : List.count (Event.write32 EFM32_MSC_MASSLOCK 0) (statusReads n) = 0 := by
        simp [statusReads, List.count_replicate]
      omega

/-- C4 witness: a two-poll success run re-locks; a one-poll faulted run
returns false with no re-lock write anywhere in its trace. -/
theorem c4_witness :
    (efm32_cmd_erase_all [(1, false), (0, false)] =
      (some true, eraseAllPre ++ statusReads 2 ++ [Event.write32 EFM32_MSC_MASSLOCK 0]) ∧
      1 ≤ 2) ∧
    (efm32_cmd_erase_all [(1, true)] = (some false, eraseAllPre ++ statusReads 1) ∧
      List.count (Event.write32 EFM32_MSC_MASSLOCK 0) (eraseAllPre ++ statusReads 1) = 0) := by
  exact ⟨(c4_erase_all [(1, false), (0, false)] 2).1 (by decide),
    (c4_erase_all [(1, true)] 1).2 (by decide)⟩

/-! ## C5: fixed controller addresses -/

/-- The five MSC registers the erase engine and the mass erase touch. -/
def mscRegAddrs : List Nat :=
  [EFM32_MSC_WRITECTRL, EFM32_MSC_WRITECMD, EFM32_MSC_ADDRB, EFM32_MSC_STATUS,
   EFM32_MSC_MASSLOCK]

/-- The first-generation (and 1.5-generation) family identifiers of the
catalog. -/
def firstGenFamilies : List Nat := [71, 72, 73, 74, 75, 76, 77, 120, 121]

/-- Page-command writes only touch the fixed MSC registers. -/
theorem pageCommands_addrs (a : Nat) :
    (pageCommands a).all (fun e => mscRegAddrs.contains (eventAddr e)) = true := by
  simp only [pageCommands, List.all_cons, List.all_nil, eventAddr]
  decide

/-- Status polls only touch the fixed status register. -/
theorem statusReads_addrs (n : Nat) :
    (statusReads n).all (fun e => mscRegAddrs.contains (eventAddr e)) = true := by
  refine List.all_eq_true.mpr ?_
  intro e he
  simp only [statusReads] at he
  rw [List.eq_of_mem_replicate he]
  decide

/-- Every transaction of the erase loop touches one of the fixed MSC
registers, whatever the block size, addresses and poll environment. -/
theorem eraseLoop_addrs (blocksize : Nat) :
    ∀ (env : List (List (Nat × Bool))) (addr len : Nat),
      ((eraseLoop blocksize env addr len).2.all
        (fun e => mscRegAddrs.contains (eventAddr e))) = true := by
  intro env
  induction env with
  | nil =>
    intro addr len
    rw [eraseLoop]
    by_cases h : len = 0 <;> simp [h]
  | cons s rest ih =>
    intro addr len
    rw [eraseLoop]
    by_cases h : len = 0
    · simp [h]
    · rw [if_neg h]
      cases hp : pollBusy s with
      | none =>
        simp only [List.all_append]
        rw [pageCommands_addrs, statusReads_addrs]
        rfl
      | some p =>
        cases p with
        | mk b n =>
          cases b with
          | false =>
            simp only [List.all_append]
            rw [pageCommands_addrs, statusReads_addrs]
            rfl
          | true =>
            simp only [List.all_append]
            rw [pageCommands_addrs, statusReads_addrs, ih (wrapAdd addr blocksize)
              (wrapSub len blocksize)]
            rfl

/-- C5: every register address the erase engine and the mass erase write or
poll lies in the fixed set based at 0x400e0000, for every input; the catalog
records `msc_offset = 0x400c0000` exactly on the first-generation entries,
and no address the two engines touch lies in that 0x400c0000-based block, so
the recorded offset is never used by them. -/
theorem c5_fixed_msc_addrs (blocksize addr len : Nat) (env : List (List (Nat × Bool)))
    (script : List (Nat × Bool)) :
    ((efm32_flash_erase blocksize addr len env).2.all
      (fun e => mscRegAddrs.contains (eventAddr e))) = true ∧
    ((efm32_cmd_erase_all script).2.all
      (fun e => mscRegAddrs.contains (eventAddr e))) = true ∧
    (mscRegAddrs.all fun a => decide (0x400e0000 ≤ a) && decide (a < 0x400e0078)) = true ∧
    (efm32_devices.all fun d =>
      firstGenFamilies.contains d.family == (d.msc_offset == 0x400c0000)) = true ∧
    (mscRegAddrs.all fun a => !(decide (0x400c0000 ≤ a) && decide (a < 0x400d0000))) = true := by
  refine ⟨?_, ?_, by decide, by decide, by decide⟩
  · unfold efm32_flash_erase
    simp only [List.all_cons]
    rw [eraseLoop_addrs]
    rfl
  · unfold efm32_cmd_erase_all
    cases hp : pollBusy script with
    | none =>
      simp only [List.all_append]
      rw [statusReads_addrs]
      decide
    | some p =>
      cases p with
      | mk b n =>
        cases b with
        | false =>
          simp only [List.all_append]
          rw [statusReads_addrs]
          decide
        | true =>
          simp only [List.all_append]
          rw [statusReads_addrs]
          decide

/-! ## C6: write engine -/

/-- C6: every write call uploads the stub to the fixed RAM base, uploads the
payload to the 4-byte-aligned address immediately following the stub, runs
the stub with `(entry, dest, scratch, len, 0)`, and returns the runtime's
result unchanged. -/
theorem c6_flash_write (stubSize dest len : Nat) (stubResult : Int) :
    (efm32_flash_write stubSize dest len stubResult).1 = stubResult ∧
    (efm32_flash_write stubSize dest len stubResult).2 =
      [Event.writeBlock SRAM_BASE stubSize,
       Event.writeBlock (STUB_BUFFER_BASE stubSize) len,
       Event.runStub SRAM_BASE dest (STUB_BUFFER_BASE stubSize) len 0] ∧
    STUB_BUFFER_BASE stubSize % 4 = 0 ∧
    SRAM_BASE + stubSize ≤ STUB_BUFFER_BASE stubSize ∧
    STUB_BUFFER_BASE stubSize < SRAM_BASE + stubSize + 4 := by
  refine ⟨rfl, rfl, ?_, ?_, ?_⟩ <;>
    · unfold STUB_BUFFER_BASE ALIGN SRAM_BASE
      omega

/-! ## C8 / C9 / C10: probe -/

/-- C8: when the SW-DP IDCODE is neither of the two accepted codes the probe
declines immediately (issuing no transaction at all), and when the part
family matches no catalog entry the probe also declines; both are negative
matches (`none`), not errors. -/
theorem c8_probe_negative (t : Target) :
    (¬ (t.idcode = 0x2BA01477 ∨ t.idcode = 0x0BC11477) → efm32_probe t = (none, [])) ∧
    (efm32_lookup (read8 t EFM32_DI_PART_FAMILY) = none → (efm32_probe t).1 = none) := by
  constructor
  · intro h
    unfold efm32_probe
    rw [if_neg h]
  · intro h
    by_cases hid : t.idcode = 0x2BA01477 ∨ t.idcode = 0x0BC11477
    · simp only [efm32_probe, if_pos hid, h]
    · simp only [efm32_probe, if_neg hid]

/-- C8 witness: an alien IDCODE (0x0BB11477) yields a bare negative match,
and an accepted IDCODE with an uncataloged family byte (0, from an all-zero
information region) yields a negative match too. -/
theorem c8_witness :
    efm32_probe { idcode := 0x0BB11477, mem := fun _ => 0 } = (none, []) ∧
    (efm32_probe { idcode := 0x2BA01477, mem := fun _ => 0 }).1 = none := by
  exact ⟨(c8_probe_negative { idcode := 0x0BB11477, mem := fun _ => 0 }).1 (by decide),
    (c8_probe_negative { idcode := 0x2BA01477, mem := fun _ => 0 }).2 (by decide)⟩

/-- A trace of pure reads leaves the target state unchanged. -/
theorem applyTrace_reads (tr : List Event) :
    ∀ t : Target, tr.all Event.isRead = true → applyTrace t tr = some t := by
  induction tr with
  | nil => intro t _; rfl
  | cons e es ih =>
    intro t h
    rw [List.all_cons, Bool.and_eq_true] at h
    obtain ⟨h1, h2⟩ := h
    cases e with
    | write32 a v => simp [Event.isRead] at h1
    | writeBlock a l => simp [Event.isRead] at h1
    | runStub a b c d f => simp [Event.isRead] at h1
    | read32 a =>
      rw [applyTrace]
      exact ih t h2
    | read16 a =>
      rw [applyTrace]
      exact ih t h2
    | read8 a =>
      rw [applyTrace]
      exact ih t h2

/-- C9: the probe is read-only and idempotent — every transaction it issues
is a read, replaying its trace leaves the target state unchanged, and
probing the replayed state again gives the same result. -/
theorem c9_probe_read_only (t : Target) :
    ((efm32_probe t).2.all Event.isRead) = true ∧
    applyTrace t (efm32_probe t).2 = some t ∧
    efm32_probe ((applyTrace t (efm32_probe t).2).getD t) = efm32_probe t := by
  have hall : ((efm32_probe t).2.all Event.isRead) = true := by
    by_cases hid : t.idcode = 0x2BA01477 ∨ t.idcode = 0x0BC11477
    · simp only [efm32_probe, if_pos hid]
      cases hl : efm32_lookup (read8 t EFM32_DI_PART_FAMILY) with
      | none => simp [Event.isRead]
      | some device =>
        by_cases hr : device.has_radio <;> simp [hr, Event.isRead]
    · simp only [efm32_probe, if_neg hid]
      rfl
  have happ := applyTrace_reads (efm32_probe t).2 t hall
  refine ⟨hall, happ, by rw [happ, Option.getD_some]⟩

/-- C10: whenever the probe identifies a device, the registered RAM region
sits at the fixed RAM origin with length the RAM size register times 1024,
and the registered flash region sits at address 0 with length the flash size
register times 1024, block size the catalog page size and write-buffer size
of one page, the catalog entry being the lookup result for the part family
byte. -/
theorem c10_probe_regions (t : Target) (d : IdentifiedDevice)
    (h : (efm32_probe t).1 = some d) :
    efm32_lookup (read8 t EFM32_DI_PART_FAMILY) = some d.device ∧
    d.ram = ⟨SRAM_BASE, read16 t EFM32_DI_MEM_INFO_RAM * 0x400⟩ ∧
    d.flash = ⟨0, read16 t EFM32_DI_MEM_INFO_FLASH * 0x400, d.device.flash_page_size,
               d.device.flash_page_size⟩ := by
  by_cases hid : t.idcode = 0x2BA01477 ∨ t.idcode = 0x0BC11477
  · simp only [efm32_probe, if_pos hid] at h
    cases hl : efm32_lookup (read8 t EFM32_DI_PART_FAMILY) with
    | none => rw [hl] at h; simp at h
    | some device =>
      rw [hl] at h
      simp only [Option.some.injEq] at h
      subst h
      refine ⟨?_, rfl, rfl⟩
      simp only []
  · simp only [efm32_probe, if_neg hid] at h
    simp at h

/-- C10 witness: a family-72 target whose flash size register reads 1024 and
RAM size register reads 128 yields the EFM32GG entry, a RAM region of
128 KiB at the RAM origin, and a flash region at 0 of length 0x100000 with
block size 2048. -/
theorem c10_witness :
    efm32_lookup (read8 exTarget72 EFM32_DI_PART_FAMILY) = some exDev72.device ∧
    exDev72.ram = ⟨SRAM_BASE, read16 exTarget72 EFM32_DI_MEM_INFO_RAM * 0x400⟩ ∧
    exDev72.flash = ⟨0, read16 exTarget72 EFM32_DI_MEM_INFO_FLASH * 0x400,
                     exDev72.device.flash_page_size, exDev72.device.flash_page_size⟩ ∧
    exDev72.flash.length = 0x100000 ∧ exDev72.flash.blocksize = 2048 ∧
    exDev72.driver = "EFM32GG" := by
  have h := c10_probe_regions exTarget72 exDev72 (by decide)
  exact ⟨h.1, h.2.1, h.2.2, rfl, rfl, rfl⟩

end Efm32
